import Mathlib

/-!
Verification of the task-flow-manager backend services against their
natural-language specification.

The definitions below are a shallow embedding of the TypeScript source:
  - backend/src/services/task.service.ts   (TaskService, ProjectService,
    AnalyticsService)
  - backend/src/repositories/audit.repository.ts (AuditRepository.create)
  - the project repository (getUserProjectRole and friends)
  - the user controller update handler (self role-change guard)

Machine integers and timestamps are modelled as Nat (milliseconds since
epoch), JS string coercion used by the diff computation is modelled by an
explicit jsString function on field values, and the Prisma transaction
wrapper is modelled by an explicit abort oracle: `none` means the store
commits, `some k` means the store aborts the transaction (the k-th
primitive write inside it is the first to fail; commit always fails).
-/

namespace TaskFlow

/-- Global user role (Prisma enum Role). -/
inductive Role where
  | ADMIN
  | MEMBER
  | VIEWER
deriving DecidableEq, Repr

/-- Project-scoped role (Prisma enum ProjectRole: only MEMBER and VIEWER). -/
inductive ProjectRole where
  | MEMBER
  | VIEWER
deriving DecidableEq, Repr

/-- Task status (Prisma enum TaskStatus). -/
inductive TaskStatus where
  | TODO
  | IN_PROGRESS
  | DONE
deriving DecidableEq, Repr

/-- Audit action (Prisma enum AuditAction). -/
inductive AuditAction where
  | CREATE
  | UPDATE
  | DELETE
deriving DecidableEq, Repr

/-- A user row (fields of the users table used by the services). -/
structure User where
  id : String
  email : String
  name : String
  role : Role
deriving DecidableEq, Repr

/-- A project row. -/
structure Project where
  id : String
  name : String
  description : Option String
deriving DecidableEq, Repr

/-- A project_members row; unique on (projectId, userId). -/
structure ProjectMember where
  id : String
  projectId : String
  userId : String
  projectRole : ProjectRole
deriving DecidableEq, Repr

/-- A tasks row. dueDate, completedAt and createdAt are epoch milliseconds. -/
structure Task where
  id : String
  title : String
  description : Option String
  status : TaskStatus
  priority : Option String
  dueDate : Option Nat
  completedAt : Option Nat
  projectId : String
  assigneeId : Option String
  reporterId : String
  createdAt : Nat
deriving DecidableEq, Repr

/-- A serialized field value as it appears in audit details. -/
inductive DVal where
  | vNull
  | vStr (s : String)
  | vStatus (s : TaskStatus)
  | vDate (ms : Nat)
deriving DecidableEq, Repr

/-- JS String(x) coercion on field values, as used by the diff computation
in TaskService.update. String(null) is "null"; Date.toString has second
granularity (milliseconds are dropped), modelled by dividing by 1000. -/
def jsString : DVal → String
  | .vNull => "null"
  | .vStr s => s
  | .vStatus .TODO => "TODO"
  | .vStatus .IN_PROGRESS => "IN_PROGRESS"
  | .vStatus .DONE => "DONE"
  | .vDate ms => toString (ms / 1000)

/-- Encode an optional string field (null becomes vNull). -/
def encOptStr : Option String → DVal
  | none => .vNull
  | some s => .vStr s

/-- Encode an optional date field (null becomes vNull). -/
def encOptDate : Option Nat → DVal
  | none => .vNull
  | some n => .vDate n

/-- The details payload of an audit row: either a full snapshot
(CREATE/DELETE), an UPDATE field diff of old/new pairs, or one of the
member-management shapes written by ProjectService. -/
inductive Details where
  | snapshot (fields : List (String × DVal))
  | diff (changes : List (String × DVal × DVal))
  | memberAdded (userId userName userEmail : String) (projectRole : ProjectRole)
  | memberRoleChanged (userId userName : String) (oldRole newRole : ProjectRole)
  | memberRemoved (userId userName userEmail : String) (projectRole : ProjectRole)
deriving DecidableEq, Repr

/-- An audit_logs row (AuditRepository.create). The row id and timestamp
are not modelled; position in the audit list reflects creation order. -/
structure AuditLog where
  entityType : String
  entityId : String
  action : AuditAction
  actorId : String
  details : Details
deriving DecidableEq, Repr

/-- The persistent store: the five tables the services touch. -/
structure DB where
  users : List User
  projects : List Project
  members : List ProjectMember
  tasks : List Task
  audits : List AuditLog
deriving DecidableEq, Repr

/-- prisma.user.findUnique on id. -/
def findUser (σ : DB) (id : String) : Option User :=
  σ.users.find? (fun u => u.id = id)

/-- prisma.project.findUnique on id (projectRepository.findById). -/
def findProject (σ : DB) (id : String) : Option Project :=
  σ.projects.find? (fun p => p.id = id)

/-- prisma.task.findUnique on id (taskRepository.findById). -/
def findTask (σ : DB) (id : String) : Option Task :=
  σ.tasks.find? (fun t => t.id = id)

/-- projectRepository.getUserProjectRole: the projectRole of the
project_members row unique on (projectId, userId), or null. -/
def getUserProjectRole (σ : DB) (projectId userId : String) : Option ProjectRole :=
  (σ.members.find? (fun m => m.projectId = projectId ∧ m.userId = userId)).map
    (fun m => m.projectRole)

/-- A typed application error (utils/AppError.ts): message, HTTP status
code and optional machine-readable error code. Metadata is not modelled. -/
structure AppError where
  message : String
  statusCode : Nat
  code : Option String
deriving DecidableEq, Repr

/-- AppError.notFound factory (status 404). -/
def AppError.notFound (message : String) (code : String) : AppError :=
  ⟨message, 404, some code⟩

/-- AppError.badRequest factory (status 400). -/
def AppError.badRequest (message : String) (code : String) : AppError :=
  ⟨message, 400, some code⟩

/-- Error raised when the store aborts a transaction. -/
def transactionFailure : AppError :=
  ⟨"Transaction failed", 500, some "ERR_SYSTEM_002"⟩

namespace ErrorCodes

def TASK_NOT_FOUND : String := "ERR_TASK_001"
def VIEWER_CANNOT_BE_ASSIGNED : String := "ERR_TASK_003"
def ASSIGNEE_NOT_FOUND : String := "ERR_TASK_004"
def ASSIGNEE_NOT_IN_PROJECT : String := "ERR_TASK_005"
def PROJECT_NOT_FOUND : String := "ERR_PROJECT_001"
def MEMBER_ALREADY_EXISTS : String := "ERR_PROJECT_003"
def MEMBER_NOT_FOUND : String := "ERR_PROJECT_004"
def USER_NOT_FOUND : String := "ERR_USER_001"

end ErrorCodes

/-- TaskService.validateAssignee: a null assignee is valid; otherwise the
assignee must hold a MEMBER project role, or hold no project role at all
and be a global ADMIN. Distinct errors for: user not found, user not in
project and not ADMIN, user is a project VIEWER. -/
def validateAssignee (σ : DB) (projectId : String) (assigneeId : Option String) :
    Except AppError Unit :=
  match assigneeId with
  | none => .ok ()
  | some aid =>
    match getUserProjectRole σ projectId aid with
    | none =>
      match findUser σ aid with
      | none =>
        .error (AppError.badRequest "Assignee not found" ErrorCodes.ASSIGNEE_NOT_FOUND)
      | some user =>
        if user.role = Role.ADMIN then
          .ok ()
        else
          .error (AppError.badRequest "Assignee is not a member of this project"
            ErrorCodes.ASSIGNEE_NOT_IN_PROJECT)
    | some projectRole =>
      if projectRole = ProjectRole.VIEWER then
        .error (AppError.badRequest
          "Cannot assign tasks to view-only users. Viewers have read-only access."
          ErrorCodes.VIEWER_CANNOT_BE_ASSIGNED)
      else
        .ok ()

/-- In-flight transaction state: the tentative store plus the number of
primitive writes already executed inside this transaction. -/
structure TxCtx where
  db : DB
  writesDone : Nat

/-- One primitive write inside a prisma transaction. With oracle `some k`
the store fails every write from the k-th one on (0-based). -/
def txWrite (oracle : Option Nat) (c : TxCtx) (f : DB → DB) : Except AppError TxCtx :=
  match oracle with
  | none => .ok ⟨f c.db, c.writesDone + 1⟩
  | some k =>
    if k ≤ c.writesDone then .error transactionFailure
    else .ok ⟨f c.db, c.writesDone + 1⟩

/-- prisma.transaction: run the body on the current store. If the body
throws, or the store aborts (oracle = some k, which also fails the final
commit), the pre-transaction store is restored; otherwise the tentative
store is committed. -/
def runTx {α : Type} (oracle : Option Nat) (σ : DB)
    (body : TxCtx → Except AppError (TxCtx × α)) : Except AppError α × DB :=
  match body ⟨σ, 0⟩ with
  | .error e => (.error e, σ)
  | .ok (c, a) =>
    match oracle with
    | some _ => (.error transactionFailure, σ)
    | none => (.ok a, c.db)

/-- Append one row to audit_logs (AuditRepository.create, always called
on the transaction handle). -/
def appendAudit (a : AuditLog) (σ : DB) : DB :=
  { σ with audits := σ.audits ++ [a] }

/-- tx.task.create: insert a tasks row. -/
def insertTask (t : Task) (σ : DB) : DB :=
  { σ with tasks := σ.tasks ++ [t] }

/-- tx.task.update: replace the tasks row with the given id. -/
def updateTaskRow (id : String) (t : Task) (σ : DB) : DB :=
  { σ with tasks := σ.tasks.map (fun x => if x.id = id then t else x) }

/-- tx.project.update: replace the projects row with the given id. -/
def updateProjectRow (id : String) (p : Project) (σ : DB) : DB :=
  { σ with projects := σ.projects.map (fun x => if x.id = id then p else x) }

/-- tx.projectMember.create: insert a project_members row. -/
def insertMember (m : ProjectMember) (σ : DB) : DB :=
  { σ with members := σ.members ++ [m] }

/-- The client-submitted body of a task-creation request (CreateTaskData).
The TypeScript interface has no reporterId field, but the controller
spreads req.body into the service argument, so a client-supplied
reporterId property can be present at runtime; the service never reads
it. -/
structure CreateTaskData where
  title : String
  description : Option String := none
  priority : Option String := none
  dueDate : Option Nat := none
  projectId : String
  assigneeId : Option String := none
  reporterId : Option String := none
deriving DecidableEq, Repr

/-- The patch of a task-update request (UpdateTaskData). The outer Option
is presence in the patch (undefined when absent); the inner Option is the
nullable column value. -/
structure UpdateTaskData where
  title : Option String := none
  description : Option (Option String) := none
  status : Option TaskStatus := none
  priority : Option (Option String) := none
  dueDate : Option (Option Nat) := none
  assigneeId : Option (Option String) := none
deriving DecidableEq, Repr

namespace TaskService

/-- The row inserted by tx.task.create: the submitted fields, with
reporterId hard-wired to the actor (a client-supplied reporterId in the
data is never read) and status defaulting to TODO. -/
def mkCreatedTask (data : CreateTaskData) (actorId newId : String) (now : Nat) : Task :=
  { id := newId
    title := data.title
    description := data.description
    status := TaskStatus.TODO
    priority := data.priority
    dueDate := data.dueDate
    completedAt := none
    projectId := data.projectId
    assigneeId := data.assigneeId
    reporterId := actorId
    createdAt := now }

/-- The CREATE audit row of TaskService.create: a snapshot of the
submitted fields. -/
def createAuditRow (data : CreateTaskData) (actorId newId : String) : AuditLog :=
  { entityType := "Task"
    entityId := newId
    action := AuditAction.CREATE
    actorId := actorId
    details := Details.snapshot
      [ ("title", DVal.vStr data.title)
      , ("description", encOptStr data.description)
      , ("priority", encOptStr data.priority)
      , ("dueDate", encOptDate data.dueDate)
      , ("projectId", DVal.vStr data.projectId)
      , ("assigneeId", encOptStr data.assigneeId) ] }

/-- TaskService.create: validate the assignee before the transaction, then
atomically insert the task (reporterId := actorId) and append the CREATE
audit row with the submitted fields. newId models the generated row id,
now the creation timestamp. -/
def create (σ : DB) (oracle : Option Nat) (data : CreateTaskData)
    (actorId newId : String) (now : Nat) : Except AppError Task × DB :=
  match validateAssignee σ data.projectId data.assigneeId with
  | .error e => (.error e, σ)
  | .ok _ =>
    let task := mkCreatedTask data actorId newId now
    runTx oracle σ (fun c =>
      match txWrite oracle c (insertTask task) with
      | .error e => .error e
      | .ok c =>
        match txWrite oracle c (appendAudit (createAuditRow data actorId newId)) with
        | .error e => .error e
        | .ok c => .ok (c, task))

/-- The completedAt entry of the update payload: entering DONE sets it to
now, leaving DONE clears it, otherwise it is absent from the payload. -/
def completedAtUpdate (currentStatus : TaskStatus) (patchStatus : Option TaskStatus)
    (now : Nat) : Option (Option Nat) :=
  match patchStatus with
  | none => none
  | some s =>
    if s = TaskStatus.DONE ∧ currentStatus ≠ TaskStatus.DONE then some (some now)
    else if s ≠ TaskStatus.DONE ∧ currentStatus = TaskStatus.DONE then some none
    else none

/-- tx.task.update payload application: fields present in the payload
replace the current values, absent fields are untouched. -/
def applyTaskPatch (t : Task) (d : UpdateTaskData) (completedAt : Option (Option Nat)) :
    Task :=
  { t with
    title := d.title.getD t.title
    description := d.description.getD t.description
    status := d.status.getD t.status
    priority := d.priority.getD t.priority
    dueDate := d.dueDate.getD t.dueDate
    assigneeId := d.assigneeId.getD t.assigneeId
    completedAt := completedAt.getD t.completedAt }

/-- One entry of the UPDATE diff: included when the field is present in
the patch and its String coercion differs from the current value. -/
def diffEntry (field : String) (old : DVal) (patchVal : Option DVal) :
    List (String × DVal × DVal) :=
  match patchVal with
  | none => []
  | some nv => if jsString old ≠ jsString nv then [(field, old, nv)] else []

/-- The field-by-field diff of TaskService.update over the fields
title, description, status, priority, assigneeId, dueDate (in the order
of fieldsToCheck), comparing String coercions. -/
def taskDiff (current : Task) (d : UpdateTaskData) : List (String × DVal × DVal) :=
  diffEntry "title" (DVal.vStr current.title) (d.title.map DVal.vStr)
    ++ diffEntry "description" (encOptStr current.description) (d.description.map encOptStr)
    ++ diffEntry "status" (DVal.vStatus current.status) (d.status.map DVal.vStatus)
    ++ diffEntry "priority" (encOptStr current.priority) (d.priority.map encOptStr)
    ++ diffEntry "assigneeId" (encOptStr current.assigneeId) (d.assigneeId.map encOptStr)
    ++ diffEntry "dueDate" (encOptDate current.dueDate) (d.dueDate.map encOptDate)

/-- TaskService.update: NotFound if the task is absent; re-validate the
assignee when present in the patch; apply the patch with the completedAt
side effect; inside one transaction update the row and, only when the
diff is non-empty, append the UPDATE audit row. -/
def update (σ : DB) (oracle : Option Nat) (id : String) (data : UpdateTaskData)
    (actorId : String) (now : Nat) : Except AppError Task × DB :=
  match findTask σ id with
  | none => (.error (AppError.notFound "Task not found" ErrorCodes.TASK_NOT_FOUND), σ)
  | some current =>
    match (match data.assigneeId with
           | none => Except.ok ()
           | some aid => validateAssignee σ current.projectId aid) with
    | .error e => (.error e, σ)
    | .ok _ =>
      let t := applyTaskPatch current data (completedAtUpdate current.status data.status now)
      let diff := taskDiff current data
      runTx oracle σ (fun c =>
        match txWrite oracle c (updateTaskRow id t) with
        | .error e => .error e
        | .ok c =>
          if diff.length > 0 then
            match txWrite oracle c (appendAudit
              { entityType := "Task"
                entityId := id
                action := AuditAction.UPDATE
                actorId := actorId
                details := Details.diff diff }) with
            | .error e => .error e
            | .ok c => .ok (c, t)
          else .ok (c, t))

end TaskService

/-- The patch of a project-update request (UpdateProjectData). -/
structure UpdateProjectData where
  name : Option String := none
  description : Option (Option String) := none
deriving DecidableEq, Repr

namespace ProjectService

/-- The field diff of ProjectService.update: name and description are
compared with strict (value) inequality against the current row. -/
def projectDiff (current : Project) (d : UpdateProjectData) :
    List (String × DVal × DVal) :=
  (match d.name with
   | none => []
   | some n =>
     if n ≠ current.name then [("name", DVal.vStr current.name, DVal.vStr n)] else [])
  ++
  (match d.description with
   | none => []
   | some desc =>
     if desc ≠ current.description
     then [("description", encOptStr current.description, encOptStr desc)] else [])

/-- Apply the project-update payload to the current row. -/
def applyProjectPatch (p : Project) (d : UpdateProjectData) : Project :=
  { p with
    name := d.name.getD p.name
    description := d.description.getD p.description }

/-- ProjectService.update: NotFound if the project is absent; inside one
transaction update the row and, only when the diff is non-empty, append
the UPDATE audit row. -/
def update (σ : DB) (oracle : Option Nat) (id : String) (data : UpdateProjectData)
    (actorId : String) : Except AppError Project × DB :=
  match findProject σ id with
  | none => (.error (AppError.notFound "Project not found" ErrorCodes.PROJECT_NOT_FOUND), σ)
  | some current =>
    let p := applyProjectPatch current data
    let diff := projectDiff current data
    runTx oracle σ (fun c =>
      match txWrite oracle c (updateProjectRow id p) with
      | .error e => .error e
      | .ok c =>
        if diff.length > 0 then
          match txWrite oracle c (appendAudit
            { entityType := "Project"
              entityId := id
              action := AuditAction.UPDATE
              actorId := actorId
              details := Details.diff diff }) with
          | .error e => .error e
          | .ok c => .ok (c, p)
        else .ok (c, p))

/-- ProjectService.addMember: NotFound if the project is absent, USER
NOT_FOUND if the user is absent, MEMBER_ALREADY_EXISTS if a
(projectId, userId) row already exists; otherwise atomically insert the
ProjectMember row and append a Project UPDATE audit row with a
memberAdded detail. newId models the generated row id. -/
def addMember (σ : DB) (oracle : Option Nat) (projectId userId : String)
    (projectRole : ProjectRole) (actorId newId : String) :
    Except AppError ProjectMember × DB :=
  match findProject σ projectId with
  | none =>
    (.error (AppError.notFound "Project not found" ErrorCodes.PROJECT_NOT_FOUND), σ)
  | some _ =>
    match findUser σ userId with
    | none => (.error (AppError.badRequest "User not found" ErrorCodes.USER_NOT_FOUND), σ)
    | some user =>
      match getUserProjectRole σ projectId userId with
      | some _ =>
        (.error (AppError.badRequest "User is already a member of this project"
          ErrorCodes.MEMBER_ALREADY_EXISTS), σ)
      | none =>
        let member : ProjectMember :=
          { id := newId, projectId := projectId, userId := userId,
            projectRole := projectRole }
        runTx oracle σ (fun c =>
          match txWrite oracle c (insertMember member) with
          | .error e => .error e
          | .ok c =>
            match txWrite oracle c (appendAudit
              { entityType := "Project"
                entityId := projectId
                action := AuditAction.UPDATE
                actorId := actorId
                details := Details.memberAdded userId user.name user.email projectRole }) with
            | .error e => .error e
            | .ok c => .ok (c, member))

end ProjectService

namespace UserController

/-- users table in-place update (userRepository.update): fields present
in the payload replace the current values. -/
def updateUserRow (σ : DB) (id : String) (u : User) : DB :=
  { σ with users := σ.users.map (fun x => if x.id = id then u else x) }

/-- UserController.update: 404 if the target user is absent; when the
actor is the target and a role is supplied that differs from the current
role, fail with the self role-change guard; otherwise apply name and
role from the payload. The role check uses strict inequality against the
current role, so supplying the current role passes the guard. -/
def update (σ : DB) (actorId targetId : String) (name : Option String)
    (role : Option Role) : Except AppError User × DB :=
  match findUser σ targetId with
  | none => (.error ⟨"User not found", 404, none⟩, σ)
  | some existingUser =>
    if actorId = targetId ∧ role.isSome ∧ role ≠ some existingUser.role then
      (.error ⟨"Cannot change your own role", 400, none⟩, σ)
    else
      let u : User :=
        { existingUser with
          name := name.getD existingUser.name
          role := role.getD existingUser.role }
      (.ok u, updateUserRow σ targetId u)

end UserController

namespace AnalyticsService

/-- Completion duration in hours of one task row (completedAt minus
createdAt, both epoch milliseconds), as a rational. -/
def durationHours (t : Task) : ℚ :=
  (((t.completedAt.getD 0 : ℤ) - (t.createdAt : ℤ) : ℤ) : ℚ) / 3600000

/-- The DONE tasks of the project that carry a completedAt timestamp (the
WHERE clause shared by the average and the histogram queries). -/
def completedTasks (σ : DB) (projectId : String) : List Task :=
  σ.tasks.filter
    (fun t => t.projectId = projectId ∧ t.status = TaskStatus.DONE ∧ t.completedAt.isSome)

/-- SQL AVG over a list of rationals: NULL on the empty list. -/
def sqlAvg (l : List ℚ) : Option ℚ :=
  if l.isEmpty then none else some (l.sum / l.length)

/-- Round to two decimals (toFixed(2) followed by parseFloat). -/
def round2 (q : ℚ) : ℚ :=
  ((round (q * 100) : ℤ) : ℚ) / 100

/-- AnalyticsService.getAvgCompletionTime: the SQL average of completion
hours over completedTasks, passed through the JS truthiness check
`result[0]?.avg_hours ? parseFloat(avg.toFixed(2)) : null` — so a NULL
average AND an average of exactly zero both yield null; otherwise the
average rounded to two decimals. -/
def getAvgCompletionTime (σ : DB) (projectId : String) : Option ℚ :=
  match sqlAvg ((completedTasks σ projectId).map durationHours) with
  | none => none
  | some avg => if avg = 0 then none else some (round2 avg)

/-- The histogram bucket of one completion duration, following the SQL
CASE expression (first matching WHEN wins; BETWEEN is inclusive). -/
def bucketOf (h : ℚ) : String :=
  if h < 24 then "< 1 Day"
  else if 24 ≤ h ∧ h ≤ 72 then "1-3 Days"
  else if 72 ≤ h ∧ h ≤ 168 then "3-7 Days"
  else "> 7 Days"

/-- The completion-time histogram returned by
getCompletionTimeDistribution: a record with all four buckets always
present; the SQL GROUP BY rows overwrite a zero-initialized map, which
amounts to counting the durations that fall into each bucket. -/
structure Distribution where
  lt1Day : Nat
  d1to3 : Nat
  d3to7 : Nat
  gt7 : Nat
deriving DecidableEq, Repr

/-- AnalyticsService.getCompletionTimeDistribution. -/
def getCompletionTimeDistribution (σ : DB) (projectId : String) : Distribution :=
  { lt1Day := (((completedTasks σ projectId).map durationHours).filter
      (fun h => bucketOf h = "< 1 Day")).length
    d1to3 := (((completedTasks σ projectId).map durationHours).filter
      (fun h => bucketOf h = "1-3 Days")).length
    d3to7 := (((completedTasks σ projectId).map durationHours).filter
      (fun h => bucketOf h = "3-7 Days")).length
    gt7 := (((completedTasks σ projectId).map durationHours).filter
      (fun h => bucketOf h = "> 7 Days")).length }

end AnalyticsService

/-! Concrete fixtures used by the counterexamples and witnesses. -/

/-- A plain TODO task in project p1. -/
def fixTask : Task :=
  ⟨"t1", "T", none, TaskStatus.TODO, none, none, none, "p1", none, "r1", 0⟩

/-- A store holding only fixTask. -/
def fixDB1 : DB := ⟨[], [], [], [fixTask], []⟩

/-- A global ADMIN user. -/
def fixAdmin : User := ⟨"u1", "admin@x", "A", Role.ADMIN⟩

/-- Project p1. -/
def fixProject : Project := ⟨"p1", "P", none⟩

/-- A VIEWER membership of fixAdmin in p1. -/
def fixViewerRow : ProjectMember := ⟨"m1", "p1", "u1", ProjectRole.VIEWER⟩

/-- A store where the global ADMIN u1 holds a VIEWER role in p1. -/
def fixDB2 : DB := ⟨[fixAdmin], [fixProject], [fixViewerRow], [], []⟩

/-- A DONE task completed two hours after creation. -/
def fixDoneTask : Task := { fixTask with status := TaskStatus.DONE, completedAt := some 7200000 }

/-- A store holding only fixDoneTask. -/
def fixDB4 : DB := ⟨[], [], [], [fixDoneTask], []⟩

/-- A DONE task whose completedAt equals its createdAt (zero duration). -/
def fixZeroTask : Task := { fixTask with status := TaskStatus.DONE, completedAt := some 0 }

/-- A store holding only fixZeroTask. -/
def fixDB9 : DB := ⟨[], [], [], [fixZeroTask], []⟩

/-- A MEMBER user. -/
def fixMemberUser : User := ⟨"u2", "member@x", "M", Role.MEMBER⟩

/-- An existing MEMBER row for u2 in p1. -/
def fixMemberRow : ProjectMember := ⟨"m2", "p1", "u2", ProjectRole.MEMBER⟩

/-- A store where u2 is already a MEMBER of p1. -/
def fixDB7 : DB := ⟨[fixMemberUser], [fixProject], [fixMemberRow], [], []⟩

/-! Helper lemmas about the transaction wrapper and the repositories. -/

/-- A transaction either leaves the store untouched (body threw, or the
oracle aborted) or the oracle was none and the tentative store of the
completed body was committed. -/
theorem runTx_state {α : Type} (oracle : Option Nat) (σ : DB)
    (body : TxCtx → Except AppError (TxCtx × α)) (res : Except AppError α) (σ' : DB)
    (h : runTx oracle σ body = (res, σ')) :
    (σ' = σ ∧ ∃ e, res = .error e) ∨
    (oracle = none ∧ ∃ c a, body ⟨σ, 0⟩ = .ok (c, a) ∧ res = .ok a ∧ σ' = c.db) := by
  unfold runTx at h
  cases hb : body ⟨σ, 0⟩ with
  | error e =>
    rw [hb] at h
    exact Or.inl ⟨(congrArg Prod.snd h).symm, e, (congrArg Prod.fst h).symm⟩
  | ok ca =>
    rw [hb] at h
    cases oracle with
    | some k =>
      exact Or.inl ⟨(congrArg Prod.snd h).symm, transactionFailure, (congrArg Prod.fst h).symm⟩
    | none =>
      refine Or.inr ⟨rfl, ca.1, ca.2, rfl, ?_, ?_⟩
      · exact (congrArg Prod.fst h).symm
      · exact (congrArg Prod.snd h).symm

/-- A found task carries the id it was looked up by. -/
theorem findTask_id {σ : DB} {id : String} {t : Task} (h : findTask σ id = some t) :
    t.id = id := by
  unfold findTask at h
  have := List.find?_some h
  exact of_decide_eq_true this

/-- Replacing every matching row in a list makes the replacement the row
found afterwards, provided the replacement keeps the id and a matching
row was found before. -/
theorem find?_map_replace (id : String) (t' : Task) (hid : t'.id = id) (l : List Task) :
    ∀ t : Task, l.find? (fun x => x.id = id) = some t →
      (l.map (fun x => if x.id = id then t' else x)).find? (fun x => x.id = id) = some t' := by
  induction l with
  | nil => intro t h; simp at h
  | cons x xs ih =>
    intro t h
    by_cases hx : x.id = id
    · simp [List.find?_cons, hx, hid]
    · simp only [List.find?_cons, decide_eq_true_eq, hx, if_false] at h
      simp only [List.map_cons, if_neg hx, List.find?_cons, decide_eq_true_eq, hx, if_false]
      exact ih t h

/-- Replacing the row of a found task makes the replacement the row found
afterwards, provided the replacement keeps the id. -/
theorem findTask_updateTaskRow {σ : DB} {id : String} {t : Task} (t' : Task)
    (h : findTask σ id = some t) (hid : t'.id = id) :
    findTask (updateTaskRow id t' σ) id = some t' :=
  find?_map_replace id t' hid σ.tasks t h

/-- Appending an audit row does not change task lookups. -/
theorem findTask_appendAudit (a : AuditLog) (σ : DB) (id : String) :
    findTask (appendAudit a σ) id = findTask σ id := rfl

/-- User analogue of find?_map_replace. -/
theorem find?_map_replace_user (id : String) (u' : User) (hid : u'.id = id) (l : List User) :
    ∀ u : User, l.find? (fun x => x.id = id) = some u →
      (l.map (fun x => if x.id = id then u' else x)).find? (fun x => x.id = id) = some u' := by
  induction l with
  | nil => intro u h; simp at h
  | cons x xs ih =>
    intro u h
    by_cases hx : x.id = id
    · simp [List.find?_cons, hx, hid]
    · simp only [List.find?_cons, decide_eq_true_eq, hx, if_false] at h
      simp only [List.map_cons, if_neg hx, List.find?_cons, decide_eq_true_eq, hx, if_false]
      exact ih u h

/-- Replacing the row of a found user makes the replacement the row found
afterwards, provided the replacement keeps the id. -/
theorem findUser_updateUserRow {σ : DB} {id : String} {u : User} (u' : User)
    (h : findUser σ id = some u) (hid : u'.id = id) :
    findUser (UserController.updateUserRow σ id u') id = some u' :=
  find?_map_replace_user id u' hid σ.users u h

/-- A found user carries the id it was looked up by. -/
theorem findUser_id {σ : DB} {id : String} {u : User} (h : findUser σ id = some u) :
    u.id = id := by
  unfold findUser at h
  have := List.find?_some h
  exact of_decide_eq_true this

namespace TaskService

/-- What TaskService.update can do to the store: either nothing (missing
task, failed validation, aborted transaction) or, with a committing
store, the row is replaced by the patched task and the UPDATE audit row
is appended exactly when the diff is non-empty. -/
theorem taskUpdate_state (σ : DB) (oracle : Option Nat) (id : String)
    (data : UpdateTaskData) (actorId : String) (now : Nat)
    (res : Except AppError Task) (σ' : DB)
    (h : update σ oracle id data actorId now = (res, σ')) :
    (σ' = σ ∧ ∃ e, res = .error e) ∨
    ∃ current, findTask σ id = some current ∧ oracle = none ∧
      res = .ok (applyTaskPatch current data (completedAtUpdate current.status data.status now)) ∧
      ((taskDiff current data = [] ∧
        σ' = updateTaskRow id
          (applyTaskPatch current data (completedAtUpdate current.status data.status now)) σ) ∨
       (taskDiff current data ≠ [] ∧
        σ' = appendAudit
          ⟨"Task", id, AuditAction.UPDATE, actorId, Details.diff (taskDiff current data)⟩
          (updateTaskRow id
            (applyTaskPatch current data (completedAtUpdate current.status data.status now)) σ))) := by
  unfold update at h
  split at h
  · exact Or.inl ⟨(congrArg Prod.snd h).symm, _, (congrArg Prod.fst h).symm⟩
  · rename_i current hf
    split at h
    · rename_i e _
      exact Or.inl ⟨(congrArg Prod.snd h).symm, e, (congrArg Prod.fst h).symm⟩
    · rcases runTx_state _ _ _ _ _ h with ⟨hσ, e, hres⟩ | ⟨horacle, c, a, hbody, hres, hdb⟩
      · exact Or.inl ⟨hσ, e, hres⟩
      · subst horacle
        by_cases hd : (taskDiff current data).length > 0
        · simp only [if_pos hd] at hbody
          have h2 : (Except.ok
              (⟨appendAudit
                  ⟨"Task", id, AuditAction.UPDATE, actorId, Details.diff (taskDiff current data)⟩
                  (updateTaskRow id
                    (applyTaskPatch current data (completedAtUpdate current.status data.status now)) σ),
                2⟩,
               applyTaskPatch current data (completedAtUpdate current.status data.status now))
              : Except AppError (TxCtx × Task)) = Except.ok (c, a) := hbody
          injection h2 with h3
          have hc : (⟨appendAudit
              ⟨"Task", id, AuditAction.UPDATE, actorId, Details.diff (taskDiff current data)⟩
              (updateTaskRow id
                (applyTaskPatch current data (completedAtUpdate current.status data.status now)) σ),
              2⟩ : TxCtx) = c := congrArg Prod.fst h3
          have ha : applyTaskPatch current data (completedAtUpdate current.status data.status now)
              = a := congrArg Prod.snd h3
          refine Or.inr ⟨current, hf, rfl, ?_, Or.inr ⟨?_, ?_⟩⟩
          · rw [hres, ← ha]
          · intro hnil; rw [hnil] at hd; simp at hd
          · rw [hdb, ← hc]
        · simp only [if_neg hd] at hbody
          have h2 : (Except.ok
              (⟨updateTaskRow id
                  (applyTaskPatch current data (completedAtUpdate current.status data.status now)) σ,
                1⟩,
               applyTaskPatch current data (completedAtUpdate current.status data.status now))
              : Except AppError (TxCtx × Task)) = Except.ok (c, a) := hbody
          injection h2 with h3
          have hc : (⟨updateTaskRow id
              (applyTaskPatch current data (completedAtUpdate current.status data.status now)) σ,
              1⟩ : TxCtx) = c := congrArg Prod.fst h3
          have ha : applyTaskPatch current data (completedAtUpdate current.status data.status now)
              = a := congrArg Prod.snd h3
          refine Or.inr ⟨current, hf, rfl, ?_, Or.inl ⟨?_, ?_⟩⟩
          · rw [hres, ← ha]
          · exact List.length_eq_zero.mp (by omega)
          · rw [hdb, ← hc]

/-- A failed assignee validation makes TaskService.create fail with the
same error and leaves the store untouched. -/
theorem create_validate_error (σ : DB) (oracle : Option Nat) (data : CreateTaskData)
    (actorId newId : String) (now : Nat) (e : AppError)
    (hv : validateAssignee σ data.projectId data.assigneeId = .error e) :
    create σ oracle data actorId newId now = (.error e, σ) := by
  unfold create
  rw [hv]

/-- A successful TaskService.create appends exactly the created row (with
reporterId equal to the actor) and its CREATE audit row. -/
theorem create_ok (σ : DB) (oracle : Option Nat) (data : CreateTaskData)
    (actorId newId : String) (now : Nat) (res : Task) (σ' : DB)
    (h : create σ oracle data actorId newId now = (.ok res, σ')) :
    res = mkCreatedTask data actorId newId now ∧
    res.reporterId = actorId ∧ res.id = newId ∧
    σ'.tasks = σ.tasks ++ [res] ∧
    σ'.audits = σ.audits ++ [createAuditRow data actorId newId] := by
  unfold create at h
  split at h
  · exact absurd (congrArg Prod.fst h) (by simp)
  · rcases runTx_state _ _ _ _ _ h with ⟨_, e, hres⟩ | ⟨horacle, c, a, hbody, hres, hdb⟩
    · exact absurd hres (by simp)
    · subst horacle
      have h2 : (Except.ok
          (⟨appendAudit (createAuditRow data actorId newId)
              (insertTask (mkCreatedTask data actorId newId now) σ), 2⟩,
           mkCreatedTask data actorId newId now)
          : Except AppError (TxCtx × Task)) = Except.ok (c, a) := hbody
      injection h2 with h3
      have hc : (⟨appendAudit (createAuditRow data actorId newId)
          (insertTask (mkCreatedTask data actorId newId now) σ), 2⟩ : TxCtx) = c :=
        congrArg Prod.fst h3
      have ha : mkCreatedTask data actorId newId now = a := congrArg Prod.snd h3
      injection hres with h4
      subst h4
      subst ha
      refine ⟨rfl, rfl, rfl, ?_, ?_⟩
      · rw [hdb, ← hc]; rfl
      · rw [hdb, ← hc]; rfl

end TaskService

namespace ProjectService

/-- What ProjectService.update can do to the store: either nothing
(missing project or aborted transaction) or, with a committing store,
the row is replaced by the patched project and the UPDATE audit row is
appended exactly when the diff is non-empty. -/
theorem projectUpdate_state (σ : DB) (oracle : Option Nat) (id : String)
    (data : UpdateProjectData) (actorId : String)
    (res : Except AppError Project) (σ' : DB)
    (h : update σ oracle id data actorId = (res, σ')) :
    (σ' = σ ∧ ∃ e, res = .error e) ∨
    ∃ current, findProject σ id = some current ∧ oracle = none ∧
      res = .ok (applyProjectPatch current data) ∧
      ((projectDiff current data = [] ∧
        σ' = updateProjectRow id (applyProjectPatch current data) σ) ∨
       (projectDiff current data ≠ [] ∧
        σ' = appendAudit
          ⟨"Project", id, AuditAction.UPDATE, actorId, Details.diff (projectDiff current data)⟩
          (updateProjectRow id (applyProjectPatch current data) σ))) := by
  unfold update at h
  split at h
  · exact Or.inl ⟨(congrArg Prod.snd h).symm, _, (congrArg Prod.fst h).symm⟩
  · rename_i current hf
    rcases runTx_state _ _ _ _ _ h with ⟨hσ, e, hres⟩ | ⟨horacle, c, a, hbody, hres, hdb⟩
    · exact Or.inl ⟨hσ, e, hres⟩
    · subst horacle
      by_cases hd : (projectDiff current data).length > 0
      · simp only [if_pos hd] at hbody
        have h2 : (Except.ok
            (⟨appendAudit
                ⟨"Project", id, AuditAction.UPDATE, actorId, Details.diff (projectDiff current data)⟩
                (updateProjectRow id (applyProjectPatch current data) σ), 2⟩,
             applyProjectPatch current data)
            : Except AppError (TxCtx × Project)) = Except.ok (c, a) := hbody
        injection h2 with h3
        have hc : (⟨appendAudit
            ⟨"Project", id, AuditAction.UPDATE, actorId, Details.diff (projectDiff current data)⟩
            (updateProjectRow id (applyProjectPatch current data) σ), 2⟩ : TxCtx) = c :=
          congrArg Prod.fst h3
        have ha : applyProjectPatch current data = a := congrArg Prod.snd h3
        refine Or.inr ⟨current, hf, rfl, ?_, Or.inr ⟨?_, ?_⟩⟩
        · rw [hres, ← ha]
        · intro hnil; rw [hnil] at hd; simp at hd
        · rw [hdb, ← hc]
      · simp only [if_neg hd] at hbody
        have h2 : (Except.ok
            (⟨updateProjectRow id (applyProjectPatch current data) σ, 1⟩,
             applyProjectPatch current data)
            : Except AppError (TxCtx × Project)) = Except.ok (c, a) := hbody
        injection h2 with h3
        have hc : (⟨updateProjectRow id (applyProjectPatch current data) σ, 1⟩ : TxCtx) = c :=
          congrArg Prod.fst h3
        have ha : applyProjectPatch current data = a := congrArg Prod.snd h3
        refine Or.inr ⟨current, hf, rfl, ?_, Or.inl ⟨?_, ?_⟩⟩
        · rw [hres, ← ha]
        · exact List.length_eq_zero.mp (by omega)
        · rw [hdb, ← hc]

end ProjectService

/-! Lemmas about the diff computations. -/

/-- Every diff entry carries the field name it was built for and a pair
of values with distinct String coercions. -/
theorem diffEntry_mem {f : String} {o : DVal} {p : Option DVal} {e : String × DVal × DVal}
    (h : e ∈ TaskService.diffEntry f o p) :
    e.1 = f ∧ jsString e.2.1 ≠ jsString e.2.2 := by
  unfold TaskService.diffEntry at h
  cases p with
  | none => simp at h
  | some nv =>
    have h2 : e ∈ (if jsString o ≠ jsString nv then [(f, o, nv)] else []) := h
    by_cases hne : jsString o ≠ jsString nv
    · rw [if_pos hne] at h2
      rcases List.mem_singleton.mp h2 with rfl
      exact ⟨rfl, hne⟩
    · rw [if_neg hne] at h2
      simp at h2

/-- A field whose patch value has the same String coercion as the current
value produces no diff entry. -/
theorem diffEntry_same {f : String} {o nv : DVal} (h : jsString o = jsString nv) :
    TaskService.diffEntry f o (some nv) = [] := by
  show (if jsString o ≠ jsString nv then [(f, o, nv)] else []) = []
  rw [if_neg (by simpa using h)]

/-- Every taskDiff entry is one of the six checked fields (never
completedAt) and its old and new values differ. -/
theorem taskDiff_mem {current : Task} {data : UpdateTaskData} {e : String × DVal × DVal}
    (h : e ∈ TaskService.taskDiff current data) :
    e.1 ∈ (["title", "description", "status", "priority", "assigneeId", "dueDate"] : List String)
    ∧ e.1 ≠ "completedAt" ∧ e.2.1 ≠ e.2.2 := by
  unfold TaskService.taskDiff at h
  have hval : e.1 = "title" ∨ e.1 = "description" ∨ e.1 = "status" ∨ e.1 = "priority"
      ∨ e.1 = "assigneeId" ∨ e.1 = "dueDate" := by
    rcases List.mem_append.mp h with h' | h'
    rcases List.mem_append.mp h' with h'' | h''
    rcases List.mem_append.mp h'' with h3 | h3
    rcases List.mem_append.mp h3 with h4 | h4
    rcases List.mem_append.mp h4 with h5 | h5
    · exact Or.inl (diffEntry_mem h5).1
    · exact Or.inr (Or.inl (diffEntry_mem h5).1)
    · exact Or.inr (Or.inr (Or.inl (diffEntry_mem h4).1))
    · exact Or.inr (Or.inr (Or.inr (Or.inl (diffEntry_mem h3).1)))
    · exact Or.inr (Or.inr (Or.inr (Or.inr (Or.inl (diffEntry_mem h'').1))))
    · exact Or.inr (Or.inr (Or.inr (Or.inr (Or.inr (diffEntry_mem h').1))))
  have hne : jsString e.2.1 ≠ jsString e.2.2 := by
    rcases List.mem_append.mp h with h' | h'
    rcases List.mem_append.mp h' with h'' | h''
    rcases List.mem_append.mp h'' with h3 | h3
    rcases List.mem_append.mp h3 with h4 | h4
    rcases List.mem_append.mp h4 with h5 | h5
    · exact (diffEntry_mem h5).2
    · exact (diffEntry_mem h5).2
    · exact (diffEntry_mem h4).2
    · exact (diffEntry_mem h3).2
    · exact (diffEntry_mem h'').2
    · exact (diffEntry_mem h').2
  refine ⟨?_, ?_, ?_⟩
  · rcases hval with h1 | h1 | h1 | h1 | h1 | h1 <;> simp [h1]
  · rcases hval with h1 | h1 | h1 | h1 | h1 | h1 <;> simp [h1]
  · intro hEq; exact hne (congrArg jsString hEq)

/-- A patch all of whose present fields equal the current values of the
task produces an empty diff. -/
theorem taskDiff_noop {current : Task} {data : UpdateTaskData}
    (ht : data.title = none ∨ data.title = some current.title)
    (hde : data.description = none ∨ data.description = some current.description)
    (hs : data.status = none ∨ data.status = some current.status)
    (hp : data.priority = none ∨ data.priority = some current.priority)
    (ha : data.assigneeId = none ∨ data.assigneeId = some current.assigneeId)
    (hd : data.dueDate = none ∨ data.dueDate = some current.dueDate) :
    TaskService.taskDiff current data = [] := by
  unfold TaskService.taskDiff
  rcases ht with ht | ht <;> rcases hde with hde | hde <;> rcases hs with hs | hs <;>
    rcases hp with hp | hp <;> rcases ha with ha | ha <;> rcases hd with hd | hd <;>
    simp [ht, hde, hs, hp, ha, hd, TaskService.diffEntry]

/-- Every projectDiff entry has distinct old and new values. -/
theorem projectDiff_mem {current : Project} {data : UpdateProjectData}
    {e : String × DVal × DVal} (h : e ∈ ProjectService.projectDiff current data) :
    e.2.1 ≠ e.2.2 := by
  unfold ProjectService.projectDiff at h
  rcases List.mem_append.mp h with h' | h'
  · cases hn : data.name with
    | none => rw [hn] at h'; simp at h'
    | some n =>
      rw [hn] at h'
      have h2 : e ∈ (if n ≠ current.name
          then [("name", DVal.vStr current.name, DVal.vStr n)] else []) := h'
      by_cases hne : n ≠ current.name
      · rw [if_pos hne] at h2
        rcases List.mem_singleton.mp h2 with rfl
        intro hEq
        injection hEq with hEq'
        exact hne hEq'.symm
      · rw [if_neg hne] at h2; simp at h2
  · cases hn : data.description with
    | none => rw [hn] at h'; simp at h'
    | some d =>
      rw [hn] at h'
      have h2 : e ∈ (if d ≠ current.description
          then [("description", encOptStr current.description, encOptStr d)] else []) := h'
      by_cases hne : d ≠ current.description
      · rw [if_pos hne] at h2
        rcases List.mem_singleton.mp h2 with rfl
        intro hEq
        apply hne
        cases d with
        | none => cases hc : current.description with
          | none => rfl
          | some s => rw [hc] at hEq; simp [encOptStr] at hEq
        | some s => cases hc : current.description with
          | none => rw [hc] at hEq; simp [encOptStr] at hEq
          | some s2 => rw [hc] at hEq; simp [encOptStr] at hEq; rw [hEq]
      · rw [if_neg hne] at h2; simp at h2

/-- A patch all of whose present fields equal the current values of the
project produces an empty diff. -/
theorem projectDiff_noop {current : Project} {data : UpdateProjectData}
    (hn : data.name = none ∨ data.name = some current.name)
    (hd : data.description = none ∨ data.description = some current.description) :
    ProjectService.projectDiff current data = [] := by
  unfold ProjectService.projectDiff
  rcases hn with hn | hn <;> rcases hd with hd | hd <;> simp [hn, hd]

/-! The claims. -/

/-- C1: the claim states that for every write method the entity mutation
and the audit append are atomic, and that after a successful call the
audit record exists if and only if the entity change was committed. The
code violates the if-and-only-if direction: TaskService.update decides
whether to audit by comparing String coercions, and String(null) equals
String("null"), so updating a task whose description is null with the
string "null" commits a real entity change (description goes from null
to the four-character string) while appending no audit row. This theorem
evaluates the code at that failing input: the call succeeds, the stored
row changes, and the audit table stays empty. -/
theorem C1_update_commits_change_without_audit :
    TaskService.update fixDB1 none "t1"
        { description := some (some "null") } "actor" 1000
      = (.ok { fixTask with description := some "null" },
         { fixDB1 with tasks := [{ fixTask with description := some "null" }] })
    ∧ fixTask.description = none
    ∧ ({ fixDB1 with tasks := [{ fixTask with description := some "null" }] } : DB).audits
        = fixDB1.audits := by
  exact ⟨rfl, rfl, rfl⟩

/-- C2 counterexample: the claim says validation succeeds if and only if
the assignee is a global ADMIN or a project MEMBER. But a global ADMIN
who holds a VIEWER row in the project is rejected with the viewer error,
so the right-to-left direction fails, and the create call writes
nothing. -/
theorem C2_counterexample :
    (findUser fixDB2 "u1").map User.role = some Role.ADMIN ∧
    validateAssignee fixDB2 "p1" (some "u1")
      = .error (AppError.badRequest
          "Cannot assign tasks to view-only users. Viewers have read-only access."
          ErrorCodes.VIEWER_CANNOT_BE_ASSIGNED) ∧
    TaskService.create fixDB2 none
        { title := "X", projectId := "p1", assigneeId := some "u1" } "actor" "t9" 5
      = (.error (AppError.badRequest
          "Cannot assign tasks to view-only users. Viewers have read-only access."
          ErrorCodes.VIEWER_CANNOT_BE_ASSIGNED), fixDB2) := by
  exact ⟨rfl, rfl, rfl⟩

/-- C2 (amended): for a non-null assigneeId, validation succeeds if and
only if the assignee holds a MEMBER row in the project, or holds no
ProjectMember row at all and is a global ADMIN (an ADMIN holding a
VIEWER row is rejected). The three failures are distinguishable:
assignee not found when no membership row and no user exists, assignee
not in project when the user exists without a row and is not ADMIN,
assignee is a viewer when the project role is VIEWER. When validation
fails, TaskService.create and TaskService.update return the error and
leave the store untouched. -/
theorem C2_assignee_validation (σ : DB) (pid aid : String) :
    (validateAssignee σ pid (some aid) = .ok () ↔
      (getUserProjectRole σ pid aid = some ProjectRole.MEMBER ∨
       (getUserProjectRole σ pid aid = none ∧
        ∃ u, findUser σ aid = some u ∧ u.role = Role.ADMIN)))
    ∧ (getUserProjectRole σ pid aid = none → findUser σ aid = none →
        validateAssignee σ pid (some aid)
          = .error (AppError.badRequest "Assignee not found" ErrorCodes.ASSIGNEE_NOT_FOUND))
    ∧ (∀ u, getUserProjectRole σ pid aid = none → findUser σ aid = some u →
        u.role ≠ Role.ADMIN →
        validateAssignee σ pid (some aid)
          = .error (AppError.badRequest "Assignee is not a member of this project"
              ErrorCodes.ASSIGNEE_NOT_IN_PROJECT))
    ∧ (getUserProjectRole σ pid aid = some ProjectRole.VIEWER →
        validateAssignee σ pid (some aid)
          = .error (AppError.badRequest
              "Cannot assign tasks to view-only users. Viewers have read-only access."
              ErrorCodes.VIEWER_CANNOT_BE_ASSIGNED))
    ∧ (∀ oracle data actorId newId now e,
        validateAssignee σ data.projectId data.assigneeId = .error e →
        TaskService.create σ oracle data actorId newId now = (.error e, σ))
    ∧ (∀ oracle id data actorId now e current,
        findTask σ id = some current → data.assigneeId = some (some aid) →
        validateAssignee σ current.projectId (some aid) = .error e →
        TaskService.update σ oracle id data actorId now = (.error e, σ)) := by
  refine ⟨?_, ?_, ?_, ?_, ?_, ?_⟩
  · unfold validateAssignee
    cases hr : getUserProjectRole σ pid aid with
    | none =>
      cases hu : findUser σ aid with
      | none => simp [hr, hu]
      | some u =>
        by_cases hA : u.role = Role.ADMIN
        · simp [hr, hu, hA]
        · simp [hr, hu, hA]
    | some r =>
      cases r with
      | MEMBER => simp [hr]
      | VIEWER => simp [hr]
  · intro hr hu
    unfold validateAssignee
    simp [hr, hu]
  · intro u hr hu hA
    unfold validateAssignee
    simp [hr, hu, hA]
  · intro hr
    unfold validateAssignee
    simp [hr]
  · intro oracle data actorId newId now e hv
    exact TaskService.create_validate_error σ oracle data actorId newId now e hv
  · intro oracle id data actorId now e current hfind hav hv
    unfold TaskService.update
    simp [hfind, hav, hv]

/-- C2 witness: the amended characterization applied to a store where u2
is a MEMBER of p1, and to the viewer rejection of fixDB2. -/
theorem C2_assignee_validation_witness :
    validateAssignee fixDB7 "p1" (some "u2") = .ok () :=
  ((C2_assignee_validation fixDB7 "p1" "u2").1).mpr (Or.inl (by rfl))

/-- C3: on every successful update of an existing task, the stored
completedAt is set to the current time when the patch status is DONE and
the current status is not DONE, cleared when the patch carries a
non-DONE status and the current status is DONE, and left unchanged in
every other case, including a patch without status and a patch whose
status equals the current status. -/
theorem C3_completedAt_transition (σ : DB) (oracle : Option Nat) (id : String)
    (data : UpdateTaskData) (actorId : String) (now : Nat) (res : Task) (σ' : DB) (t : Task)
    (hfind : findTask σ id = some t)
    (h : TaskService.update σ oracle id data actorId now = (.ok res, σ')) :
    ∃ t', findTask σ' id = some t' ∧
      t'.completedAt =
        (if data.status = some TaskStatus.DONE ∧ t.status ≠ TaskStatus.DONE then some now
         else if data.status ≠ none ∧ data.status ≠ some TaskStatus.DONE
             ∧ t.status = TaskStatus.DONE then none
         else t.completedAt) := by
  rcases TaskService.taskUpdate_state σ oracle id data actorId now (.ok res) σ' h with
    ⟨_, e, hres⟩ | ⟨current, hfind2, _, hres, hst⟩
  · exact absurd hres (by simp)
  · rw [hfind] at hfind2
    injection hfind2 with hcur
    subst hcur
    have hid0 : t.id = id := findTask_id hfind
    refine ⟨TaskService.applyTaskPatch t data
      (TaskService.completedAtUpdate t.status data.status now), ?_, ?_⟩
    · rcases hst with ⟨_, hσ'⟩ | ⟨_, hσ'⟩
      · rw [hσ']
        exact findTask_updateTaskRow _ hfind hid0
      · rw [hσ', findTask_appendAudit]
        exact findTask_updateTaskRow _ hfind hid0
    · show (TaskService.completedAtUpdate t.status data.status now).getD t.completedAt = _
      unfold TaskService.completedAtUpdate
      cases hs : data.status with
      | none => simp [hs]
      | some s =>
        by_cases hsD : s = TaskStatus.DONE
        · subst hsD
          by_cases htD : t.status = TaskStatus.DONE
          · simp [hs, htD]
          · simp [hs, htD]
        · by_cases htD : t.status = TaskStatus.DONE
          · simp [hs, hsD, htD]
          · simp [hs, hsD, htD]

/-- C3 witness: moving the fixture TODO task to DONE at time 1000 stores
completedAt = 1000. -/
theorem C3_completedAt_transition_witness :
    ∃ t', findTask (TaskService.update fixDB1 none "t1"
        { status := some TaskStatus.DONE } "actor" 1000).2 "t1" = some t' ∧
      t'.completedAt =
        (if (some TaskStatus.DONE : Option TaskStatus) = some TaskStatus.DONE
            ∧ fixTask.status ≠ TaskStatus.DONE then some 1000
         else if (some TaskStatus.DONE : Option TaskStatus) ≠ none
             ∧ (some TaskStatus.DONE : Option TaskStatus) ≠ some TaskStatus.DONE
             ∧ fixTask.status = TaskStatus.DONE then none
         else fixTask.completedAt) :=
  C3_completedAt_transition fixDB1 none "t1" { status := some TaskStatus.DONE }
    "actor" 1000
    { fixTask with status := TaskStatus.DONE, completedAt := some 1000 }
    (TaskService.update fixDB1 none "t1"
      { status := some TaskStatus.DONE } "actor" 1000).2
    fixTask rfl rfl

/-- C4 counterexample: the claim says a status transition that changes
completedAt as a side effect logs the completedAt change in the audit
details alongside the status diff. Reverting the fixture DONE task
(completedAt = 7200000) to TODO clears completedAt in the stored row,
yet the audit UPDATE row contains only the status entry — completedAt is
not among the diff keys, because fieldsToCheck does not include it and
the patch never carries it. -/
theorem C4_counterexample :
    (TaskService.update fixDB4 none "t1"
        { status := some TaskStatus.TODO } "actor" 9999).2.audits
      = [⟨"Task", "t1", AuditAction.UPDATE, "actor",
          Details.diff [("status", DVal.vStatus TaskStatus.DONE, DVal.vStatus TaskStatus.TODO)]⟩]
    ∧ "completedAt" ∉
        ([("status", DVal.vStatus TaskStatus.DONE, DVal.vStatus TaskStatus.TODO)].map Prod.fst)
    ∧ fixDoneTask.completedAt = some 7200000
    ∧ findTask (TaskService.update fixDB4 none "t1"
        { status := some TaskStatus.TODO } "actor" 9999).2 "t1"
      = some { fixDoneTask with status := TaskStatus.TODO, completedAt := none } := by
  refine ⟨rfl, ?_, rfl, rfl⟩
  simp

/-- C4 (amended): completedAt is never part of the audit diff. On every
successful TaskService.update, either no audit row is appended or the
appended UPDATE row is a diff whose keys all come from title,
description, status, priority, assigneeId, dueDate — never completedAt,
even when the status transition changed completedAt in the stored row. -/
theorem C4_diff_excludes_completedAt (σ : DB) (oracle : Option Nat) (id : String)
    (data : UpdateTaskData) (actorId : String) (now : Nat) (res : Task) (σ' : DB)
    (h : TaskService.update σ oracle id data actorId now = (.ok res, σ')) :
    σ'.audits = σ.audits ∨
    ∃ l, σ'.audits = σ.audits ++ [⟨"Task", id, AuditAction.UPDATE, actorId, Details.diff l⟩]
      ∧ ∀ e ∈ l, e.1 ≠ "completedAt" ∧
          e.1 ∈ (["title", "description", "status", "priority", "assigneeId", "dueDate"]
            : List String) := by
  rcases TaskService.taskUpdate_state σ oracle id data actorId now (.ok res) σ' h with
    ⟨hσ, _⟩ | ⟨current, _, _, _, hst⟩
  · exact Or.inl (by rw [hσ])
  · rcases hst with ⟨_, hσ'⟩ | ⟨_, hσ'⟩
    · exact Or.inl (by rw [hσ']; rfl)
    · refine Or.inr ⟨TaskService.taskDiff current data, by rw [hσ']; rfl, ?_⟩
      intro e he
      exact ⟨(taskDiff_mem he).2.1, (taskDiff_mem he).1⟩

/-- C4 witness: the amended theorem applied to the DONE-to-TODO revert of
the fixture. -/
theorem C4_diff_excludes_completedAt_witness :
    (TaskService.update fixDB4 none "t1"
        { status := some TaskStatus.TODO } "actor" 9999).2.audits = fixDB4.audits ∨
    ∃ l, (TaskService.update fixDB4 none "t1"
        { status := some TaskStatus.TODO } "actor" 9999).2.audits
      = fixDB4.audits ++ [⟨"Task", "t1", AuditAction.UPDATE, "actor", Details.diff l⟩]
      ∧ ∀ e ∈ l, e.1 ≠ "completedAt" ∧
          e.1 ∈ (["title", "description", "status", "priority", "assigneeId", "dueDate"]
            : List String) :=
  C4_diff_excludes_completedAt fixDB4 none "t1" { status := some TaskStatus.TODO }
    "actor" 9999 { fixDoneTask with status := TaskStatus.TODO, completedAt := none }
    (TaskService.update fixDB4 none "t1" { status := some TaskStatus.TODO } "actor" 9999).2
    rfl

/-- C5: a Task.update or Project.update whose patch agrees with the
current row on every supplied field writes zero audit rows (whatever the
transaction oracle does), and every audit diff row ever produced by the
two update methods contains only entries whose old and new values
differ. -/
theorem C5_noop_update_no_audit :
    (∀ σ oracle id data actorId now t res σ',
       findTask σ id = some t →
       (data.title = none ∨ data.title = some t.title) →
       (data.description = none ∨ data.description = some t.description) →
       (data.status = none ∨ data.status = some t.status) →
       (data.priority = none ∨ data.priority = some t.priority) →
       (data.assigneeId = none ∨ data.assigneeId = some t.assigneeId) →
       (data.dueDate = none ∨ data.dueDate = some t.dueDate) →
       TaskService.update σ oracle id data actorId now = (res, σ') →
       σ'.audits = σ.audits)
    ∧ (∀ σ oracle id data actorId p res σ',
       findProject σ id = some p →
       (data.name = none ∨ data.name = some p.name) →
       (data.description = none ∨ data.description = some p.description) →
       ProjectService.update σ oracle id data actorId = (res, σ') →
       σ'.audits = σ.audits)
    ∧ (∀ σ oracle id data actorId now res σ',
       TaskService.update σ oracle id data actorId now = (res, σ') →
       ∀ a ∈ σ'.audits, a ∈ σ.audits ∨
         ∃ l, a.details = Details.diff l ∧ ∀ e ∈ l, e.2.1 ≠ e.2.2)
    ∧ (∀ σ oracle id data actorId res σ',
       ProjectService.update σ oracle id data actorId = (res, σ') →
       ∀ a ∈ σ'.audits, a ∈ σ.audits ∨
         ∃ l, a.details = Details.diff l ∧ ∀ e ∈ l, e.2.1 ≠ e.2.2) := by
  refine ⟨?_, ?_, ?_, ?_⟩
  · intro σ oracle id data actorId now t res σ' hfind h1 h2 h3 h4 h5 h6 h
    rcases TaskService.taskUpdate_state σ oracle id data actorId now res σ' h with
      ⟨hσ, _⟩ | ⟨current, hfind2, _, _, hst⟩
    · rw [hσ]
    · rw [hfind] at hfind2
      injection hfind2 with hcur
      subst hcur
      have hdiff : TaskService.taskDiff t data = [] := taskDiff_noop h1 h2 h3 h4 h5 h6
      rcases hst with ⟨_, hσ'⟩ | ⟨hne, _⟩
      · rw [hσ']; rfl
      · exact absurd hdiff hne
  · intro σ oracle id data actorId p res σ' hfind h1 h2 h
    rcases ProjectService.projectUpdate_state σ oracle id data actorId res σ' h with
      ⟨hσ, _⟩ | ⟨current, hfind2, _, _, hst⟩
    · rw [hσ]
    · rw [hfind] at hfind2
      injection hfind2 with hcur
      subst hcur
      have hdiff : ProjectService.projectDiff p data = [] := projectDiff_noop h1 h2
      rcases hst with ⟨_, hσ'⟩ | ⟨hne, _⟩
      · rw [hσ']; rfl
      · exact absurd hdiff hne
  · intro σ oracle id data actorId now res σ' h a ha
    rcases TaskService.taskUpdate_state σ oracle id data actorId now res σ' h with
      ⟨hσ, _⟩ | ⟨current, _, _, _, hst⟩
    · rw [hσ] at ha; exact Or.inl ha
    · rcases hst with ⟨_, hσ'⟩ | ⟨_, hσ'⟩
      · rw [hσ'] at ha; exact Or.inl ha
      · rw [hσ'] at ha
        rcases List.mem_append.mp ha with ha' | ha'
        · exact Or.inl ha'
        · rcases List.mem_singleton.mp ha' with rfl
          exact Or.inr ⟨TaskService.taskDiff current data, rfl,
            fun e he => (taskDiff_mem he).2.2⟩
  · intro σ oracle id data actorId res σ' h a ha
    rcases ProjectService.projectUpdate_state σ oracle id data actorId res σ' h with
      ⟨hσ, _⟩ | ⟨current, _, _, _, hst⟩
    · rw [hσ] at ha; exact Or.inl ha
    · rcases hst with ⟨_, hσ'⟩ | ⟨_, hσ'⟩
      · rw [hσ'] at ha; exact Or.inl ha
      · rw [hσ'] at ha
        rcases List.mem_append.mp ha with ha' | ha'
        · exact Or.inl ha'
        · rcases List.mem_singleton.mp ha' with rfl
          exact Or.inr ⟨ProjectService.projectDiff current data, rfl,
            fun e he => projectDiff_mem he⟩

/-- C5 witness: an empty patch on the fixture task writes no audit row. -/
theorem C5_noop_update_no_audit_witness :
    (TaskService.update fixDB1 none "t1" {} "actor" 0).2.audits = fixDB1.audits :=
  C5_noop_update_no_audit.1 fixDB1 none "t1" {} "actor" 0 fixTask
    (TaskService.update fixDB1 none "t1" {} "actor" 0).1
    (TaskService.update fixDB1 none "t1" {} "actor" 0).2
    rfl (Or.inl rfl) (Or.inl rfl) (Or.inl rfl) (Or.inl rfl) (Or.inl rfl) (Or.inl rfl) rfl

/-- C6 counterexample: the claim says a self-update carrying a role
always fails, even when the supplied role equals the current role. In
the code the guard requires the supplied role to differ from the stored
role, so an ADMIN updating themselves with role ADMIN succeeds. -/
theorem C6_counterexample :
    fixAdmin.role = Role.ADMIN ∧
    UserController.update fixDB2 "u1" "u1" none (some Role.ADMIN) = (.ok fixAdmin, fixDB2) := by
  exact ⟨rfl, rfl⟩

/-- C6 (amended): a self-update supplying a role fails with the
self-protection error exactly when the supplied role differs from the
current role of the target user, leaving the store untouched; when the
supplied role equals the current role the update proceeds and the
stored role is unchanged. -/
theorem C6_self_role_guard (σ : DB) (actorId targetId : String) (name : Option String)
    (r : Role) (existing : User)
    (hfind : findUser σ targetId = some existing) (hself : actorId = targetId) :
    (r ≠ existing.role →
      UserController.update σ actorId targetId name (some r)
        = (.error ⟨"Cannot change your own role", 400, none⟩, σ))
    ∧ (r = existing.role →
      ∃ u σ', UserController.update σ actorId targetId name (some r) = (.ok u, σ')
        ∧ u.role = existing.role
        ∧ findUser σ' targetId = some u) := by
  constructor
  · intro hne
    subst hself
    unfold UserController.update
    simp [hfind, hne]
  · intro hEq
    subst hEq
    subst hself
    refine ⟨{ existing with name := name.getD existing.name, role := existing.role },
      UserController.updateUserRow σ actorId
        { existing with name := name.getD existing.name, role := existing.role }, ?_, rfl, ?_⟩
    · unfold UserController.update
      simp [hfind]
    · have hid1 : existing.id = actorId := findUser_id hfind
      have hid2 : ({ existing with name := name.getD existing.name, role := existing.role } : User).id = actorId := hid1
      exact findUser_updateUserRow _ hfind hid2

/-- C6 witness: the amended guard applied to the fixture ADMIN changing
their own role to MEMBER. -/
theorem C6_self_role_guard_witness :
    UserController.update fixDB2 "u1" "u1" none (some Role.MEMBER)
      = (.error ⟨"Cannot change your own role", 400, none⟩, fixDB2) :=
  (C6_self_role_guard fixDB2 "u1" "u1" none Role.MEMBER fixAdmin rfl rfl).1 (by decide)

/-- C7: addMember fails NotFound when the project is absent, fails with
the user-not-found code when the user is absent, fails AlreadyExists
when a (projectId, userId) membership row already exists — leaving the
store, and hence the existing member role, untouched — and otherwise,
with a committing store, inserts the ProjectMember row and appends a
Project UPDATE audit row with a memberAdded detail. -/
theorem C7_addMember (σ : DB) (oracle : Option Nat) (pid uid : String)
    (role : ProjectRole) (actorId newId : String) :
    (findProject σ pid = none →
      ProjectService.addMember σ oracle pid uid role actorId newId
        = (.error (AppError.notFound "Project not found" ErrorCodes.PROJECT_NOT_FOUND), σ))
    ∧ (∀ p, findProject σ pid = some p → findUser σ uid = none →
      ProjectService.addMember σ oracle pid uid role actorId newId
        = (.error (AppError.badRequest "User not found" ErrorCodes.USER_NOT_FOUND), σ))
    ∧ (∀ p u r, findProject σ pid = some p → findUser σ uid = some u →
        getUserProjectRole σ pid uid = some r →
        ProjectService.addMember σ oracle pid uid role actorId newId
          = (.error (AppError.badRequest "User is already a member of this project"
              ErrorCodes.MEMBER_ALREADY_EXISTS), σ))
    ∧ (∀ p u, findProject σ pid = some p → findUser σ uid = some u →
        getUserProjectRole σ pid uid = none → oracle = none →
        ProjectService.addMember σ oracle pid uid role actorId newId
          = (.ok ⟨newId, pid, uid, role⟩,
             appendAudit
               ⟨"Project", pid, AuditAction.UPDATE, actorId,
                 Details.memberAdded uid u.name u.email role⟩
               (insertMember ⟨newId, pid, uid, role⟩ σ))) := by
  refine ⟨?_, ?_, ?_, ?_⟩
  · intro hp
    unfold ProjectService.addMember
    simp [hp]
  · intro p hp hu
    unfold ProjectService.addMember
    simp [hp, hu]
  · intro p u r hp hu hr
    unfold ProjectService.addMember
    simp [hp, hu, hr]
  · intro p u hp hu hr horacle
    subst horacle
    unfold ProjectService.addMember
    simp [hp, hu, hr]
    rfl

/-- C7 witness: re-adding the existing MEMBER u2 of p1 with role VIEWER
fails AlreadyExists and leaves the store unchanged. -/
theorem C7_addMember_witness :
    ProjectService.addMember fixDB7 none "p1" "u2" ProjectRole.VIEWER "actor" "m9"
      = (.error (AppError.badRequest "User is already a member of this project"
          ErrorCodes.MEMBER_ALREADY_EXISTS), fixDB7) :=
  (C7_addMember fixDB7 none "p1" "u2" ProjectRole.VIEWER "actor" "m9").2.2.1
    fixProject fixMemberUser ProjectRole.MEMBER rfl rfl rfl

/-- C8: every successfully created task stores reporterId equal to the
actor id of the authenticated caller, regardless of any client-supplied
reporterId in the submitted data (the service never reads it). -/
theorem C8_reporter_is_actor (σ : DB) (oracle : Option Nat) (data : CreateTaskData)
    (actorId newId : String) (now : Nat) (res : Task) (σ' : DB)
    (h : TaskService.create σ oracle data actorId newId now = (.ok res, σ')) :
    res.reporterId = actorId ∧ σ'.tasks = σ.tasks ++ [res] := by
  have hres := TaskService.create_ok σ oracle data actorId newId now res σ' h
  exact ⟨hres.2.1, hres.2.2.2.1⟩

/-- C8 witness: creating a task with a client-supplied reporterId of
"evil" still stores reporterId "actor". -/
theorem C8_reporter_is_actor_witness :
    (TaskService.mkCreatedTask
        { title := "X", projectId := "p1", reporterId := some "evil" }
        "actor" "t2" 7).reporterId = "actor"
    ∧ (TaskService.create fixDB1 none
        { title := "X", projectId := "p1", reporterId := some "evil" }
        "actor" "t2" 7).2.tasks
      = fixDB1.tasks ++ [TaskService.mkCreatedTask
          { title := "X", projectId := "p1", reporterId := some "evil" } "actor" "t2" 7] :=
  C8_reporter_is_actor fixDB1 none
    { title := "X", projectId := "p1", reporterId := some "evil" } "actor" "t2" 7
    (TaskService.mkCreatedTask
      { title := "X", projectId := "p1", reporterId := some "evil" } "actor" "t2" 7)
    (TaskService.create fixDB1 none
      { title := "X", projectId := "p1", reporterId := some "evil" } "actor" "t2" 7).2
    rfl

/-- Every completion duration falls into exactly one of the four named
buckets, the bucket being the one computed by the SQL CASE. -/
theorem bucketOf_eq (h : ℚ) :
    AnalyticsService.bucketOf h = "< 1 Day" ∨ AnalyticsService.bucketOf h = "1-3 Days"
    ∨ AnalyticsService.bucketOf h = "3-7 Days" ∨ AnalyticsService.bucketOf h = "> 7 Days" := by
  unfold AnalyticsService.bucketOf
  by_cases h1 : h < 24
  · exact Or.inl (by rw [if_pos h1])
  · by_cases h2 : 24 ≤ h ∧ h ≤ 72
    · exact Or.inr (Or.inl (by rw [if_neg h1, if_pos h2]))
    · by_cases h3 : 72 ≤ h ∧ h ≤ 168
      · exact Or.inr (Or.inr (Or.inl (by rw [if_neg h1, if_neg h2, if_pos h3])))
      · exact Or.inr (Or.inr (Or.inr (by rw [if_neg h1, if_neg h2, if_neg h3])))

/-- The four bucket filters partition any duration list. -/
theorem bucket_partition (hs : List ℚ) :
    (hs.filter (fun h => AnalyticsService.bucketOf h = "< 1 Day")).length
    + (hs.filter (fun h => AnalyticsService.bucketOf h = "1-3 Days")).length
    + (hs.filter (fun h => AnalyticsService.bucketOf h = "3-7 Days")).length
    + (hs.filter (fun h => AnalyticsService.bucketOf h = "> 7 Days")).length
    = hs.length := by
  induction hs with
  | nil => rfl
  | cons x xs ih =>
    rcases bucketOf_eq x with hb | hb | hb | hb <;>
      · simp [List.filter_cons, hb]
        omega

/-- C9 counterexample: the claim says that whenever DONE tasks with a
completedAt exist, avgCompletionTimeHours is their average rounded to
two decimals. The fixture store has exactly one such task, completed at
the instant it was created, so the average is 0 hours — but the JS
truthiness check result[0]?.avg_hours treats 0 as absent and the method
returns null instead of 0. -/
theorem C9_counterexample :
    AnalyticsService.completedTasks fixDB9 "p1" = [fixZeroTask] ∧
    AnalyticsService.getAvgCompletionTime fixDB9 "p1" = none := by
  constructor
  · rfl
  · unfold AnalyticsService.getAvgCompletionTime
    have hs : AnalyticsService.sqlAvg
        ((AnalyticsService.completedTasks fixDB9 "p1").map AnalyticsService.durationHours)
        = some 0 := by
      have h1 : (AnalyticsService.completedTasks fixDB9 "p1").map AnalyticsService.durationHours
          = [AnalyticsService.durationHours fixZeroTask] := rfl
      have h2 : AnalyticsService.durationHours fixZeroTask = 0 := by
        unfold AnalyticsService.durationHours
        norm_num [fixZeroTask, fixTask]
      rw [h1, h2]
      unfold AnalyticsService.sqlAvg
      norm_num
    rw [hs]
    norm_num

/-- C9 (amended): with zero DONE-and-completed tasks the histogram is
zero-filled on all four buckets (which are always present, partitioning
every completion duration) and the average is null; when such tasks
exist the average of their completion hours is returned rounded to two
decimals, except that an average of exactly zero is returned as null by
the JS truthiness check. -/
theorem C9_analytics (σ : DB) (pid : String) :
    (AnalyticsService.completedTasks σ pid = [] →
      AnalyticsService.getCompletionTimeDistribution σ pid = ⟨0, 0, 0, 0⟩ ∧
      AnalyticsService.getAvgCompletionTime σ pid = none)
    ∧ (∀ q, AnalyticsService.completedTasks σ pid ≠ [] →
        q = ((AnalyticsService.completedTasks σ pid).map AnalyticsService.durationHours).sum
          / ((AnalyticsService.completedTasks σ pid).map AnalyticsService.durationHours).length →
        AnalyticsService.getAvgCompletionTime σ pid
          = if q = 0 then none else some (AnalyticsService.round2 q))
    ∧ ((AnalyticsService.getCompletionTimeDistribution σ pid).lt1Day
        + (AnalyticsService.getCompletionTimeDistribution σ pid).d1to3
        + (AnalyticsService.getCompletionTimeDistribution σ pid).d3to7
        + (AnalyticsService.getCompletionTimeDistribution σ pid).gt7
        = (AnalyticsService.completedTasks σ pid).length) := by
  refine ⟨?_, ?_, ?_⟩
  · intro hempty
    constructor
    · unfold AnalyticsService.getCompletionTimeDistribution
      rw [hempty]
      rfl
    · unfold AnalyticsService.getAvgCompletionTime AnalyticsService.sqlAvg
      rw [hempty]
      rfl
  · intro q hne hq
    have hl : ((AnalyticsService.completedTasks σ pid).map AnalyticsService.durationHours) ≠ [] := by
      intro hmap
      exact hne (List.map_eq_nil_iff.mp hmap)
    have hs : AnalyticsService.sqlAvg
        ((AnalyticsService.completedTasks σ pid).map AnalyticsService.durationHours) = some q := by
      unfold AnalyticsService.sqlAvg
      rw [if_neg (by simpa [List.isEmpty_iff] using hl), hq]
    unfold AnalyticsService.getAvgCompletionTime
    rw [hs]
  · unfold AnalyticsService.getCompletionTimeDistribution
    rw [show (AnalyticsService.completedTasks σ pid).length
        = ((AnalyticsService.completedTasks σ pid).map AnalyticsService.durationHours).length
        from by simp]
    exact bucket_partition
      ((AnalyticsService.completedTasks σ pid).map AnalyticsService.durationHours)

/-- C9 witness: the fixture store fixDB1 has no completed task in p1, so
all four buckets are present with value 0 and the average is null; the
bucket counts partition the completed tasks. -/
theorem C9_analytics_witness :
    (AnalyticsService.getCompletionTimeDistribution fixDB1 "p1" = ⟨0, 0, 0, 0⟩ ∧
     AnalyticsService.getAvgCompletionTime fixDB1 "p1" = none) :=
  (C9_analytics fixDB1 "p1").1 rfl

/-- C10: a successful Task.update never changes the projectId,
reporterId, createdAt (or id) of the task: the stored row after the
update agrees with the row before on those fields, so only title,
description, status, priority, dueDate, assigneeId and the computed
completedAt can differ. -/
theorem C10_update_frame (σ : DB) (oracle : Option Nat) (id : String)
    (data : UpdateTaskData) (actorId : String) (now : Nat) (res : Task) (σ' : DB) (t : Task)
    (hfind : findTask σ id = some t)
    (h : TaskService.update σ oracle id data actorId now = (.ok res, σ')) :
    ∃ t', findTask σ' id = some t'
      ∧ t'.id = t.id ∧ t'.projectId = t.projectId ∧ t'.reporterId = t.reporterId
      ∧ t'.createdAt = t.createdAt
      ∧ t' = { t with
          title := t'.title, description := t'.description, status := t'.status,
          priority := t'.priority, dueDate := t'.dueDate, assigneeId := t'.assigneeId,
          completedAt := t'.completedAt } := by
  rcases TaskService.taskUpdate_state σ oracle id data actorId now (.ok res) σ' h with
    ⟨_, e, hres⟩ | ⟨current, hfind2, _, hres, hst⟩
  · exact absurd hres (by simp)
  · rw [hfind] at hfind2
    injection hfind2 with hcur
    subst hcur
    have hid0 : t.id = id := findTask_id hfind
    refine ⟨TaskService.applyTaskPatch t data
      (TaskService.completedAtUpdate t.status data.status now), ?_, rfl, rfl, rfl, rfl, rfl⟩
    rcases hst with ⟨_, hσ'⟩ | ⟨_, hσ'⟩
    · rw [hσ']
      exact findTask_updateTaskRow _ hfind hid0
    · rw [hσ', findTask_appendAudit]
      exact findTask_updateTaskRow _ hfind hid0

/-- C10 witness: updating the fixture task title keeps projectId,
reporterId and createdAt. -/
theorem C10_update_frame_witness :
    ∃ t', findTask (TaskService.update fixDB1 none "t1"
        { title := some "New" } "actor" 0).2 "t1" = some t'
      ∧ t'.id = fixTask.id ∧ t'.projectId = fixTask.projectId
      ∧ t'.reporterId = fixTask.reporterId ∧ t'.createdAt = fixTask.createdAt
      ∧ t' = { fixTask with
          title := t'.title, description := t'.description, status := t'.status,
          priority := t'.priority, dueDate := t'.dueDate, assigneeId := t'.assigneeId,
          completedAt := t'.completedAt } :=
  C10_update_frame fixDB1 none "t1" { title := some "New" } "actor" 0
    { fixTask with title := "New" }
    (TaskService.update fixDB1 none "t1" { title := some "New" } "actor" 0).2
    fixTask rfl rfl

end TaskFlow
